import Mathlib

/-!
Verification of the ORKG reproducibility-score evaluation scripts
(collect_orkg_data.py and evaluate_reproducibility.py),
shallowly embedded in Lean. Python floats are modelled by rationals,
Python strings by Lean strings (code points), and all network calls
by explicit oracle functions passed as parameters.
-/

/-- Python whitespace characters stripped by str.strip (ASCII subset). -/
def pyWhitespace (c : Char) : Bool :=
  c = ' ' || c = '\t' || c = '\n' || c = '\x0d' || c = '\x0b' || c = '\x0c'

/-- Embedding of Python str.strip(): drop whitespace from both ends. -/
def pyStrip (s : String) : String :=
  ⟨((s.data.dropWhile pyWhitespace).reverse.dropWhile pyWhitespace).reverse⟩

/-- Embedding of Python slicing s[:n]: the first n code points. -/
def pyTake (n : Nat) (s : String) : String := ⟨s.data.take n⟩

/-- Embedding of Python str.lower() (ASCII-faithful). -/
def pyLower (s : String) : String := ⟨s.data.map Char.toLower⟩

example : pyStrip " n/a " = "n/a" := by decide
example : pyLower "N/A" = "n/a" := by decide
example : pyTake 2 "abcd" = "ab" := by decide

/-- Embedding of Python str.startswith on code points. -/
def pyStartsWith (s pre : String) : Bool := pre.data.isPrefixOf s.data

/-- Substring containment: Python operator in for strings (needle in hay). -/
def hasSub : List Char → List Char → Bool
  | [], needle => needle.isEmpty
  | c :: t, needle => needle.isPrefixOf (c :: t) || hasSub t needle

/-- Case-insensitive literal match at the start of the input, as used for
the literal part of the repository regexes compiled with IGNORECASE. -/
def ciPrefixOf : List Char → List Char → Bool
  | [], _ => true
  | _ :: _, [] => false
  | p :: ps, c :: cs => (p.toLower == c.toLower) && ciPrefixOf ps cs

/-- Characters excluded by the regex class for the repository-name group. -/
def repoNameDelim (c : Char) : Bool :=
  c = '/' || pyWhitespace c || c = '?' || c = '#'

/-- Try to match host([^/]+)/([^/ ?#]+) at the start of s, returning the two
groups. The first group is the maximal run of non-slash characters and must
be followed by a slash; the second group is the maximal run of non-delimiter
characters; both must be non-empty, exactly as the regex requires. -/
def matchOwnerRepoAt (host : List Char) (s : List Char) :
    Option (List Char × List Char) :=
  if ciPrefixOf host s then
    let rest := s.drop host.length
    let g1 := rest.takeWhile (fun c => c != '/')
    if g1.isEmpty then none
    else
      match rest.drop g1.length with
      | '/' :: rest3 =>
        let g2 := rest3.takeWhile (fun c => !(repoNameDelim c))
        if g2.isEmpty then none else some (g1, g2)
      | _ => none
  else none

/-- Try to match a literal followed by one or more digits at the start of s,
returning the digit group (the zenodo and doi record-id regexes). -/
def matchDigitsAt (lit : List Char) (s : List Char) : Option (List Char) :=
  if ciPrefixOf lit s then
    let g := (s.drop lit.length).takeWhile Char.isDigit
    if g.isEmpty then none else some g
  else none

/-- Scan every start position left to right and return the first match,
the semantics of re.search. -/
def reSearch {α : Type} (tryAt : List Char → Option α) : List Char → Option α
  | [] => tryAt []
  | s =>
    match tryAt s with
    | some r => some r
    | none =>
      match s with
      | [] => none
      | _ :: t => reSearch tryAt t

/-- One entry of REPO_PATTERNS: either a host literal followed by owner and
name groups, or a record literal followed by a digit group. -/
inductive RepoPattern where
  | ownerRepo (host : String) (tag : String)
  | recordId (lit : String) (tag : String)

/-- The fixed, ordered REPO_PATTERNS list from collect_orkg_data.py. -/
def REPO_PATTERNS : List RepoPattern := [
  .ownerRepo "github.com/" "github",
  .ownerRepo "gitlab.com/" "gitlab",
  .ownerRepo "bitbucket.org/" "bitbucket",
  .recordId "zenodo.org/record/" "zenodo",
  .recordId "doi.org/10.5281/zenodo." "zenodo",
  .ownerRepo "huggingface.co/" "huggingface"]

/-- Embedding of re.sub with an end-anchored .git pattern: remove one
trailing occurrence of .git if present. -/
def stripDotGit (s : String) : String :=
  if [ '.', 'g', 'i', 't' ].isSuffixOf s.data then ⟨s.data.take (s.data.length - 4)⟩
  else s

/-- Run one repository pattern against a URL, producing
(repo_type, repo_owner, repo_name) exactly as extract_repo_info does:
zenodo-style patterns yield the fixed owner and the raw record id,
owner/name patterns strip a trailing .git from the name. -/
def runRepoPattern (p : RepoPattern) (url : String) :
    Option (String × String × String) :=
  match p with
  | .ownerRepo host tag =>
    match reSearch (matchOwnerRepoAt host.data) url.data with
    | some (g1, g2) => some (tag, ⟨g1⟩, stripDotGit ⟨g2⟩)
    | none => none
  | .recordId lit tag =>
    match reSearch (matchDigitsAt lit.data) url.data with
    | some g => some (tag, "zenodo", ⟨g⟩)
    | none => none

/-- Embedding of extract_repo_info from collect_orkg_data.py lines 61-71:
empty URL gives none, otherwise the first matching pattern wins. -/
def extract_repo_info (url : String) : Option (String × String × String) :=
  if url = "" then none
  else REPO_PATTERNS.findSome? fun p => runRepoPattern p url

/-- The fixed ONTOLOGY_PREFIXES table from collect_orkg_data.py. -/
def ONTOLOGY_PREFIXES : List (String × String) := [
  ("wikidata:", "wikidata"), ("wd:", "wikidata"),
  ("http://www.wikidata.org/", "wikidata"), ("https://www.wikidata.org/", "wikidata"),
  ("http://purl.org/", "purl"), ("https://purl.org/", "purl"),
  ("http://www.w3.org/", "w3"), ("https://www.w3.org/", "w3"),
  ("http://schema.org/", "schema.org"), ("https://schema.org/", "schema.org"),
  ("http://dbpedia.org/", "dbpedia"), ("https://dbpedia.org/", "dbpedia"),
  ("doi:", "doi"), ("orcid:", "orcid")]

/-- Embedding of get_ontology_source: first prefix whose lowered text occurs
in the lowered object id or the lowered value. -/
def get_ontology_source (obj_id value : String) : Option String :=
  ONTOLOGY_PREFIXES.findSome? fun pr =>
    if hasSub (pyLower obj_id).data (pyLower pr.1).data
        || hasSub (pyLower value).data (pyLower pr.1).data then some pr.2
    else none

/-- The fixed REPRO_KEYWORDS vocabulary from collect_orkg_data.py. -/
def REPRO_KEYWORDS : List String := [
  "source code", "code", "implementation", "repository", "github",
  "dataset", "data", "benchmark", "model", "method", "url",
  "download", "license", "software", "script", "notebook",
  "framework", "library", "tool", "approach", "technique", "algorithm"]

/-- Embedding of is_repro_relevant: some keyword occurs in the lowered label. -/
def is_repro_relevant (label : String) : Bool :=
  REPRO_KEYWORDS.any fun kw => hasSub (pyLower label).data kw.data

example : extract_repo_info "https://github.com/foo/bar.git" = some ("github", "foo", "bar") := by decide
example : extract_repo_info "https://github.com/foo/.git" = some ("github", "foo", "") := by decide
example : extract_repo_info "https://zenodo.org/record/123" = some ("zenodo", "zenodo", "123") := by decide
example : extract_repo_info "https://example.org/x" = none := by decide
example : is_repro_relevant "Source Code" = true := by decide
example : is_repro_relevant "temperature" = false := by decide

/-- A predicate of a raw ORKG statement (fields read by process_property). -/
structure RawPredicate where
  id : String
  label : String

/-- An object of a raw ORKG statement (fields read by process_property). -/
structure RawObject where
  id : String
  label : String
  objectClass : String

/-- A raw ORKG statement as consumed by process_property. The objectClass
field models the JSON key for the object kind (resource or literal). -/
structure RawStatement where
  predicate : RawPredicate
  object : RawObject

/-- The typed property record built by process_property. -/
structure PropInfo where
  predicate_id : String
  predicate_label : String
  object_id : String
  object_class : String
  property_type : String
  value : String
  is_url : Bool
  is_repo_url : Bool
  repo_type : Option String
  repo_owner : Option String
  repo_name : Option String
  is_resource : Bool
  is_ontology_linked : Bool
  ontology_source : Option String
  is_literal : Bool
  reproducibility_relevant : Bool

/-- Embedding of process_property from collect_orkg_data.py lines 116-162:
a value starting with a scheme makes the property a url (with repository
extraction attempted), otherwise a resource-kind object makes it a resource
(with ontology lookup), otherwise it is a literal. -/
def process_property (stmt : RawStatement) : PropInfo :=
  let pred_label := stmt.predicate.label
  let value := stmt.object.label
  let obj_id := stmt.object.id
  let obj_class := stmt.object.objectClass
  let is_url := pyStartsWith value "http://" || pyStartsWith value "https://"
  let res : String × Option (String × String × String) × Option String :=
    if is_url then ("url", extract_repo_info value, none)
    else if obj_class = "resource" then ("resource", none, get_ontology_source obj_id value)
    else ("literal", none, none)
  let prop_type := res.1
  let repo_info := res.2.1
  let onto_source := res.2.2
  { predicate_id := stmt.predicate.id
    predicate_label := pred_label
    object_id := obj_id
    object_class := obj_class
    property_type := prop_type
    value := value
    is_url := is_url
    is_repo_url := repo_info.isSome
    repo_type := repo_info.map fun r => r.1
    repo_owner := repo_info.map fun r => r.2.1
    repo_name := repo_info.map fun r => r.2.2
    is_resource := prop_type == "resource"
    is_ontology_linked := onto_source.isSome
    ontology_source := onto_source
    is_literal := prop_type == "literal"
    reproducibility_relevant := is_repro_relevant pred_label }

example : (process_property ⟨⟨"P1", "code"⟩, ⟨"R1", "https://github.com/a/b", "resource"⟩⟩).property_type = "url" := by decide
example : (process_property ⟨⟨"P1", "code"⟩, ⟨"R1", "wikidata:Q1", "resource"⟩⟩).is_ontology_linked = true := by decide
example : (process_property ⟨⟨"P1", "code"⟩, ⟨"R1", "v1.0", "literal"⟩⟩).property_type = "literal" := by decide

/-- Evaluation record for one property (dataclass PropertyEval). Scores are
rationals, modelling the Python floats exactly on the values that occur. -/
structure PropertyEval where
  contribution_id : String
  paper_id : String
  paper_title : String
  predicate_id : String
  predicate_label : String
  object_id : String
  property_type : String
  value : String
  availability : ℚ
  availability_reason : String
  accessibility : ℚ
  accessibility_reason : String
  linkability : ℚ
  linkability_reason : String
  license : ℚ
  license_reason : String
  repo_type : String
  ontology_source : String
  license_name : String

/-- Evaluation record for one contribution (dataclass ContributionEval). -/
structure ContributionEval where
  contribution_id : String
  paper_id : String
  paper_title : String
  num_properties : Nat
  availability : ℚ
  accessibility : ℚ
  linkability : ℚ
  license : ℚ
  overall : ℚ
  tier : String
  properties : List PropertyEval

/-- A contribution as read by evaluate_reproducibility.py: the fields the
evaluator consumes from each record of the collected dataset. -/
structure Contribution where
  contribution_id : String
  contribution_label : String
  paper_id : String
  paper_title : String
  paper_doi : Option String
  all_properties : List PropInfo
  reproducibility_properties : List PropInfo

/-- The null-like token list from evaluate_reproducibility.py line 184. -/
def NULL_TOKENS : List String := ["n/a", "none", "null"]

/-- Availability stanza (evaluate_reproducibility.py lines 183-187): the raw
value must be non-empty, strip to something non-empty, and its lowered raw
form must not be a null-like token. -/
def avail_score (value : String) : ℚ × String :=
  if value ≠ "" ∧ pyStrip value ≠ "" ∧ pyLower value ∉ NULL_TOKENS then
    (100, "Valid: has value")
  else (0, "Not Valid: empty/null")

/-- Accessibility stanza (lines 189-196): only urls are probed; with
checking disabled the pillar is skipped and passes; non-urls always pass as
inapplicable. The urlCheck oracle stands for check_url. -/
def access_score (check_access : Bool) (urlCheck : String → Bool × String)
    (ptype value : String) : ℚ × String :=
  if ptype = "url" then
    if check_access then
      let r := urlCheck value
      (if r.1 then 100 else 0, (if r.1 then "Valid: " else "Not Valid: ") ++ r.2)
    else (100, "Skipped")
  else (100, "Inapplicable (not URL)")

/-- Linkability stanza (lines 198-205): only resources are checked; a
resource passes exactly when it is ontology linked. -/
def link_score (p : PropInfo) : ℚ × String :=
  if p.property_type = "resource" then
    if p.is_ontology_linked then
      (100, "Valid: linked to " ++ p.ontology_source.getD "ontology")
    else (0, "Not Valid: internal ORKG resource " ++ p.object_id)
  else (100, "Inapplicable (not resource)")

/-- License stanza (lines 207-220): only repo urls are looked up; with
checking disabled the pillar is skipped and passes. The licCheck oracle
stands for check_license and returns (has_license, license_name, reason). -/
def lic_score (check_lic : Bool)
    (licCheck : String → String → String → Bool × String × String)
    (p : PropInfo) : ℚ × String × String :=
  if p.property_type = "url" ∧ p.is_repo_url then
    if check_lic then
      let r := licCheck (p.repo_type.getD "") (p.repo_owner.getD "") (p.repo_name.getD "")
      (if r.1 then 100 else 0, (if r.1 then "Valid: " else "Not Valid: ") ++ r.2.2, r.2.1)
    else (100, "Skipped", "")
  else (100, "Inapplicable (not repo URL)", "")

/-- The body of the property loop of evaluate_contribution (lines 172-242):
scores all four pillars for one property and builds its PropertyEval, with
the stored value truncated to 150 code points. -/
def score_property (cid pid ptitle : String) (check_access check_lic : Bool)
    (urlCheck : String → Bool × String)
    (licCheck : String → String → String → Bool × String × String)
    (p : PropInfo) : PropertyEval :=
  let availPair := avail_score p.value
  let accessPair := access_score check_access urlCheck p.property_type p.value
  let linkPair := link_score p
  let licTriple := lic_score check_lic licCheck p
  { contribution_id := cid
    paper_id := pid
    paper_title := ptitle
    predicate_id := p.predicate_id
    predicate_label := p.predicate_label
    object_id := p.object_id
    property_type := p.property_type
    value := pyTake 150 p.value
    availability := availPair.1
    availability_reason := availPair.2
    accessibility := accessPair.1
    accessibility_reason := accessPair.2
    linkability := linkPair.1
    linkability_reason := linkPair.2
    license := licTriple.1
    license_reason := licTriple.2.1
    repo_type := p.repo_type.getD ""
    ontology_source := p.ontology_source.getD ""
    license_name := licTriple.2.2 }

/-- statistics.mean: sum divided by length. Only applied to non-empty lists,
as in the source. -/
def listMean (l : List ℚ) : ℚ := l.sum / l.length

/-- Embedding of calc_mean (evaluate_reproducibility.py lines 245-251):
an empty score list yields 100; four or more scores are sorted and the
first and last are dropped before averaging; otherwise a plain mean. -/
def calc_mean (scores : List ℚ) : ℚ :=
  if scores = [] then 100
  else if 4 ≤ scores.length then
    listMean (((scores.insertionSort (· ≤ ·)).drop 1).dropLast)
  else listMean scores

/-- Embedding of get_tier (lines 152-156). -/
def get_tier (score : ℚ) : String :=
  if 80 ≤ score then "Excellent"
  else if 60 ≤ score then "Good"
  else if 40 ≤ score then "Fair"
  else "Poor"

/-- Embedding of evaluate_contribution (lines 159-268): score every
reproducibility property, reduce each pillar with calc_mean, average the
four pillar means into the overall score and attach its tier. -/
def evaluate_contribution (contrib : Contribution)
    (check_access check_lic : Bool)
    (urlCheck : String → Bool × String)
    (licCheck : String → String → String → Bool × String × String) :
    ContributionEval :=
  let props := contrib.reproducibility_properties
  let evals := props.map (score_property contrib.contribution_id
    contrib.paper_id contrib.paper_title check_access check_lic urlCheck licCheck)
  let avail_mean := calc_mean (evals.map fun e => e.availability)
  let access_mean := calc_mean (evals.map fun e => e.accessibility)
  let link_mean := calc_mean (evals.map fun e => e.linkability)
  let lic_mean := calc_mean (evals.map fun e => e.license)
  let overall := listMean [avail_mean, access_mean, link_mean, lic_mean]
  { contribution_id := contrib.contribution_id
    paper_id := contrib.paper_id
    paper_title := contrib.paper_title
    num_properties := props.length
    availability := avail_mean
    accessibility := access_mean
    linkability := link_mean
    license := lic_mean
    overall := overall
    tier := get_tier overall
    properties := evals }

/-- The Value column of one row of export_detailed (line 459): the stored
property value further truncated to 80 code points. -/
def detailed_value_cell (p : PropertyEval) : String := pyTake 80 p.value

example : calc_mean [] = 100 := by norm_num [calc_mean]
example : calc_mean [0, 100] = 50 := by
  norm_num [calc_mean, listMean, List.sum_cons, List.sum_nil, List.cons_ne_nil]
example : calc_mean [0, 0, 100, 100] = 50 := by
  norm_num [calc_mean, listMean, List.insertionSort, List.orderedInsert,
    List.dropLast, List.sum_cons, List.sum_nil, List.cons_ne_nil]
example : calc_mean [100, 0, 100, 100, 100] = 100 := by
  norm_num [calc_mean, listMean, List.insertionSort, List.orderedInsert,
    List.dropLast, List.sum_cons, List.sum_nil, List.cons_ne_nil]
example : (avail_score " n/a").1 = 100 := by decide
example : (avail_score "n/a").1 = 0 := by decide
example : (avail_score "  ").1 = 0 := by decide

/-- The per-category counters of the Balanced Collector. -/
structure TypeCounts where
  url_repo : Nat
  url_other : Nat
  resource_onto : Nat
  resource_internal : Nat
  literal : Nat

/-- Embedding of get_property_category (collect_orkg_data.py lines 165-172). -/
def get_property_category (p : PropInfo) : String :=
  if p.property_type = "url" then
    if p.is_repo_url then "url_repo" else "url_other"
  else if p.property_type = "resource" then
    if p.is_ontology_linked then "resource_onto" else "resource_internal"
  else "literal"

/-- Add one to the counter named by the category string. -/
def bumpCategory (c : TypeCounts) (cat : String) : TypeCounts :=
  if cat = "url_repo" then { c with url_repo := c.url_repo + 1 }
  else if cat = "url_other" then { c with url_other := c.url_other + 1 }
  else if cat = "resource_onto" then { c with resource_onto := c.resource_onto + 1 }
  else if cat = "resource_internal" then { c with resource_internal := c.resource_internal + 1 }
  else { c with literal := c.literal + 1 }

/-- Embedding of count_contribution_types (lines 175-181): category tallies
of one contribution, starting from all-zero counters. -/
def count_contribution_types (repro_props : List PropInfo) : TypeCounts :=
  repro_props.foldl (fun c p => bumpCategory c (get_property_category p)) ⟨0, 0, 0, 0, 0⟩

/-- Embedding of is_balanced (lines 184-186): every counter at least the
per-type minimum. -/
def is_balanced (c : TypeCounts) (min_per_type : Nat) : Bool :=
  min_per_type ≤ c.url_repo && min_per_type ≤ c.url_other
    && min_per_type ≤ c.resource_onto && min_per_type ≤ c.resource_internal
    && min_per_type ≤ c.literal

/-- Embedding of contribution_helps_balance (lines 194-201): the
contribution has a positive tally for some category still below target. -/
def contribution_helps_balance (contrib_types counts : TypeCounts)
    (min_per_type : Nat) : Bool :=
  (counts.url_repo < min_per_type && 0 < contrib_types.url_repo)
    || (counts.url_other < min_per_type && 0 < contrib_types.url_other)
    || (counts.resource_onto < min_per_type && 0 < contrib_types.resource_onto)
    || (counts.resource_internal < min_per_type && 0 < contrib_types.resource_internal)
    || (counts.literal < min_per_type && 0 < contrib_types.literal)

/-- Pointwise sum of counters, the update applied after accepting. -/
def addCounts (a b : TypeCounts) : TypeCounts :=
  ⟨a.url_repo + b.url_repo, a.url_other + b.url_other,
    a.resource_onto + b.resource_onto, a.resource_internal + b.resource_internal,
    a.literal + b.literal⟩

/-- A raw contribution entry inside a paper of the paginated source. -/
structure RawContrib where
  id : String
  label : String

/-- A paper of the paginated source (fields read by collect_contributions). -/
structure Paper where
  id : String
  title : String
  doi : Option String
  contributions : List RawContrib

/-- Mutable state of the collection loop. -/
structure CollectState where
  contributions : List Contribution
  type_counts : TypeCounts

/-- Processing of one contribution inside the paper loop of
collect_contributions (lines 260-309): a failed or empty statement bundle
or an empty relevant-property list skips the contribution; a contribution
that does not help balance is skipped once more than 50 are held; otherwise
it is appended and the counters are bumped by its tallies. The bundles
oracle stands for the statement-bundle request, none being a transport
failure. -/
def processOneContrib (min_per_type : Nat)
    (bundles : String → Option (List RawStatement)) (paper : Paper)
    (c : RawContrib) (st : CollectState) : CollectState :=
  let statements := (bundles c.id).getD []
  if statements.isEmpty then st
  else
    let all_props := statements.map process_property
    let repro_props := all_props.filter fun p => p.reproducibility_relevant
    if repro_props.isEmpty then st
    else
      let contrib_types := count_contribution_types repro_props
      if ¬ is_balanced st.type_counts min_per_type
          ∧ ¬ contribution_helps_balance contrib_types st.type_counts min_per_type
          ∧ 50 < st.contributions.length then st
      else
        { contributions := st.contributions ++ [{
            contribution_id := c.id
            contribution_label := c.label
            paper_id := paper.id
            paper_title := paper.title
            paper_doi := paper.doi
            all_properties := all_props
            reproducibility_properties := repro_props }]
          type_counts := addCounts st.type_counts contrib_types }

/-- The contribution loop of one paper (lines 256-309), with the break on
balance or on the contribution cap. -/
def processContribs (min_per_type max_contributions : Nat)
    (bundles : String → Option (List RawStatement)) (paper : Paper) :
    List RawContrib → CollectState → CollectState
  | [], st => st
  | c :: rest, st =>
    if is_balanced st.type_counts min_per_type
        ∨ max_contributions ≤ st.contributions.length then st
    else
      processContribs min_per_type max_contributions bundles paper rest
        (processOneContrib min_per_type bundles paper c st)

/-- The paper loop of one page (lines 249-309), with the same break. -/
def processPapers (min_per_type max_contributions : Nat)
    (bundles : String → Option (List RawStatement)) :
    List Paper → CollectState → CollectState
  | [], st => st
  | paper :: rest, st =>
    if is_balanced st.type_counts min_per_type
        ∨ max_contributions ≤ st.contributions.length then st
    else
      processPapers min_per_type max_contributions bundles rest
        (processContribs min_per_type max_contributions bundles paper
          paper.contributions st)

/-- The page loop of collect_contributions (lines 204-311), written with a
fuel argument so that the recursion is structural; the loop itself already
stops at max_pages = 1000 through its page guard, and collect_contributions
below supplies exactly that much fuel. The pages oracle stands for the
paginated paper request, none being a transport failure and an empty list a
page without content; both break the loop. -/
def collectAux (min_per_type max_contributions : Nat)
    (pages : Nat → Option (List Paper))
    (bundles : String → Option (List RawStatement)) :
    Nat → Nat → CollectState → CollectState
  | 0, _, st => st
  | fuel + 1, page, st =>
    if ¬ is_balanced st.type_counts min_per_type ∧ page < 1000
        ∧ st.contributions.length < max_contributions then
      match pages page with
      | none => st
      | some papers =>
        if papers.isEmpty then st
        else
          collectAux min_per_type max_contributions pages bundles fuel (page + 1)
            (processPapers min_per_type max_contributions bundles papers st)
    else st

/-- Embedding of collect_contributions: run the page loop from page 0 with
empty state. -/
def collect_contributions (min_per_type max_contributions : Nat)
    (pages : Nat → Option (List Paper))
    (bundles : String → Option (List RawStatement)) : CollectState :=
  collectAux min_per_type max_contributions pages bundles 1000 0
    ⟨[], ⟨0, 0, 0, 0, 0⟩⟩

/-! Helper lemmas about means, sorting and erasure. -/

lemma listMean_congr_perm {l₁ l₂ : List ℚ} (h : List.Perm l₁ l₂) :
    listMean l₁ = listMean l₂ := by
  unfold listMean
  rw [h.sum_eq, h.length_eq]

lemma le_getLast_of_sorted :
    ∀ (l : List ℚ) (hne : l ≠ []), List.Sorted (· ≤ ·) l →
      ∀ x ∈ l, x ≤ l.getLast hne := by
  intro l
  induction l with
  | nil => intro hne; exact absurd rfl hne
  | cons a t ih =>
    intro hne hs x hx
    cases t with
    | nil =>
      simp only [List.mem_singleton] at hx
      subst hx
      simp [List.getLast]
    | cons b t' =>
      have hcons := List.sorted_cons.mp hs
      rw [List.getLast_cons (List.cons_ne_nil b t')]
      rcases List.mem_cons.mp hx with hxa | hxt
      · subst hxa
        exact hcons.1 _ (List.getLast_mem (List.cons_ne_nil b t'))
      · exact ih (List.cons_ne_nil b t') hcons.2 x hxt

/-- C1: calc_mean realises the specified trimmed mean. An empty score list
yields 100; a list of fewer than four scores is averaged untrimmed; a list
of four or more scores is averaged after removing exactly one occurrence of
a minimum value and one occurrence of a maximum value, duplicates of the
extremes being kept. -/
theorem calc_mean_trimmed_spec (l : List ℚ) :
    (l = [] → calc_mean l = 100) ∧
    (l ≠ [] → l.length < 4 → calc_mean l = listMean l) ∧
    (4 ≤ l.length → ∀ m M : ℚ, m ∈ l → (∀ x ∈ l, m ≤ x) → M ∈ l →
      (∀ x ∈ l, x ≤ M) → calc_mean l = listMean ((l.erase m).erase M)) := by
  refine ⟨fun h => by simp [calc_mean, h], fun h1 h2 => ?_, ?_⟩
  · rw [calc_mean, if_neg h1, if_neg (by omega)]
  · intro h4 m M hm hmle hM hMle
    have hnil : l ≠ [] := by intro h; subst h; simp at h4
    have hperm : List.Perm (List.insertionSort (· ≤ ·) l) l :=
      List.perm_insertionSort _ l
    have hsort : List.Sorted (· ≤ ·) (List.insertionSort (· ≤ ·) l) :=
      List.sorted_insertionSort _ l
    have hlen : (List.insertionSort (· ≤ ·) l).length = l.length := hperm.length_eq
    obtain ⟨a, t, hst⟩ : ∃ a t, List.insertionSort (· ≤ ·) l = a :: t := by
      cases hs : List.insertionSort (· ≤ ·) l with
      | nil => rw [hs] at hlen; simp at hlen; omega
      | cons a t => exact ⟨a, t, rfl⟩
    have htne : t ≠ [] := by
      intro h
      rw [hst, h] at hlen
      simp at hlen
      omega
    rw [hst] at hsort hperm
    have hcons := List.sorted_cons.mp hsort
    -- the head of the sorted list is the minimum value
    have ham : a = m := by
      have h1 : m ≤ a := hmle a (hperm.subset (List.mem_cons_self a t))
      have h2 : a ≤ m := by
        rcases List.mem_cons.mp (hperm.symm.subset hm) with h | h
        · exact le_of_eq h.symm
        · exact hcons.1 m h
      exact le_antisymm h2 h1
    -- the last element of the sorted list is the maximum value
    have hbM : t.getLast htne = M := by
      have hmem : t.getLast htne ∈ a :: t :=
        List.mem_cons_of_mem a (List.getLast_mem htne)
      have h1 : t.getLast htne ≤ M := hMle _ (hperm.subset hmem)
      have h2 : M ≤ t.getLast htne := by
        have hMs : M ∈ a :: t := hperm.symm.subset hM
        have := le_getLast_of_sorted (a :: t) (List.cons_ne_nil a t) hsort M hMs
        rwa [List.getLast_cons htne] at this
      exact le_antisymm h1 h2
    -- the sorted list decomposes as min :: (trimmed ++ [max])
    have hdecomp : a :: t = a :: (t.dropLast ++ [t.getLast htne]) := by
      rw [List.dropLast_append_getLast htne]
    -- hence it is a permutation of min :: max :: trimmed
    have hp1 : List.Perm (a :: t) (m :: M :: t.dropLast) := by
      rw [hdecomp, ham, hbM]
      exact (List.perm_append_singleton M t.dropLast).cons m
    -- and the original list is a permutation of min :: max :: doubly-erased
    have hMem' : M ∈ l.erase m := by
      by_cases hmm : m = M
      · subst hmm
        have hlenerase : (l.erase m).length = l.length - 1 :=
          List.length_erase_of_mem hm
        obtain ⟨x, hx⟩ : ∃ x, x ∈ l.erase m := by
          cases he : l.erase m with
          | nil => rw [he] at hlenerase; simp at hlenerase; omega
          | cons y ys => exact ⟨y, he ▸ List.mem_cons_self y ys⟩
        have hxl : x ∈ l := List.erase_subset _ _ hx
        have : x = m := le_antisymm (hMle x hxl) (hmle x hxl)
        exact this ▸ hx
      · exact (List.mem_erase_of_ne (Ne.symm (Ne.symm hmm)).symm).mpr hM
    have hp2 : List.Perm l (m :: M :: (l.erase m).erase M) :=
      (List.perm_cons_erase hm).trans ((List.perm_cons_erase hMem').cons m)
    -- cancel the two extremes on both sides
    have hp3 : List.Perm (m :: M :: t.dropLast) (m :: M :: (l.erase m).erase M) :=
      (hp1.symm.trans hperm).trans hp2
    have hp4 : List.Perm t.dropLast ((l.erase m).erase M) := hp3.cons_inv.cons_inv
    rw [calc_mean, if_neg hnil, if_pos h4, hst]
    simpa using listMean_congr_perm hp4

/-- C1 witness: the trimmed branch evaluated on a concrete list with
duplicated extremes. -/
theorem calc_mean_trimmed_spec_witness :
    calc_mean [0, 0, 100, 100] = listMean (([0, 0, 100, 100].erase 0).erase 100) :=
  (calc_mean_trimmed_spec [0, 0, 100, 100]).2.2 (by decide) 0 100 (by decide)
    (by decide) (by decide) (by decide)

lemma pyStrip_ne_empty {v : String} (h : pyStrip v ≠ "") : v ≠ "" := by
  intro hv
  subst hv
  exact h rfl

/-- C2 (amended): the Availability score is 100 exactly when the value
strips to something non-empty and the lowered raw (untrimmed) value is not
a null-like token; the empty value scores 0 with the fixed reason; the
score is always binary. The token test applies to the raw value, not the
stripped one. -/
theorem availability_rule (cid pid ptitle : String) (check_access check_lic : Bool)
    (urlCheck : String → Bool × String)
    (licCheck : String → String → String → Bool × String × String) (p : PropInfo) :
    ((score_property cid pid ptitle check_access check_lic urlCheck licCheck p).availability = 100 ↔
      (pyStrip p.value ≠ "" ∧ pyLower p.value ∉ NULL_TOKENS)) ∧
    (p.value = "" →
      (score_property cid pid ptitle check_access check_lic urlCheck licCheck p).availability = 0 ∧
      (score_property cid pid ptitle check_access check_lic urlCheck licCheck p).availability_reason =
        "Not Valid: empty/null") ∧
    ((score_property cid pid ptitle check_access check_lic urlCheck licCheck p).availability = 0 ∨
      (score_property cid pid ptitle check_access check_lic urlCheck licCheck p).availability = 100) := by
  have hav : (score_property cid pid ptitle check_access check_lic urlCheck licCheck p).availability =
      (avail_score p.value).1 := rfl
  have hre : (score_property cid pid ptitle check_access check_lic urlCheck licCheck p).availability_reason =
      (avail_score p.value).2 := rfl
  rw [hav, hre]
  unfold avail_score
  refine ⟨?_, ?_, ?_⟩
  · split_ifs with h
    · simp only [true_iff]
      exact ⟨h.2.1, h.2.2⟩
    · constructor
      · intro h100
        norm_num at h100
      · rintro ⟨h1, h2⟩
        exact absurd ⟨pyStrip_ne_empty h1, h1, h2⟩ h
  · intro hv
    rw [if_neg]
    · exact ⟨rfl, rfl⟩
    · rintro ⟨h1, -⟩
      exact h1 hv
  · split_ifs
    · right; rfl
    · left; rfl

/-- A concrete literal property whose value is a null token preceded by a
space. -/
def propNA : PropInfo :=
  { predicate_id := "P1", predicate_label := "code", object_id := "L1",
    object_class := "literal", property_type := "literal", value := " n/a",
    is_url := false, is_repo_url := false, repo_type := none,
    repo_owner := none, repo_name := none, is_resource := false,
    is_ontology_linked := false, ontology_source := none, is_literal := true,
    reproducibility_relevant := true }

/-- C2 counterexample: the value strips to the null token n/a, so the claim
demands an Availability score of 0, but the code scores it 100 because the
token test runs on the untrimmed value. -/
theorem availability_rule_counterexample :
    (score_property "C1" "P1" "T" true true (fun _ => (true, "HTTP 200"))
      (fun _ _ _ => (false, "", "API failed")) propNA).availability = 100 ∧
    pyStrip " n/a" = "n/a" ∧ pyLower (pyStrip " n/a") ∈ NULL_TOKENS := by
  refine ⟨rfl, by decide, by decide⟩

/-- C2 witness: the empty-value branch of the availability rule applied to
a concrete property. -/
theorem availability_rule_witness :
    (score_property "C1" "P1" "T" true true (fun _ => (true, "HTTP 200"))
      (fun _ _ _ => (false, "", "API failed"))
      { propNA with value := "" }).availability = 0 ∧
    (score_property "C1" "P1" "T" true true (fun _ => (true, "HTTP 200"))
      (fun _ _ _ => (false, "", "API failed"))
      { propNA with value := "" }).availability_reason = "Not Valid: empty/null" :=
  (availability_rule "C1" "P1" "T" true true (fun _ => (true, "HTTP 200"))
    (fun _ _ _ => (false, "", "API failed")) { propNA with value := "" }).2.1 rfl

/-- C4: inapplicable pillars always pass with 100, whatever the value and
whatever the live-check toggles: Accessibility for non-url properties (with
the fixed reason), Linkability for non-resource properties, License for
properties that are not repo urls. -/
theorem inapplicable_passes (cid pid ptitle : String) (check_access check_lic : Bool)
    (urlCheck : String → Bool × String)
    (licCheck : String → String → String → Bool × String × String) (p : PropInfo) :
    (p.property_type ≠ "url" →
      (score_property cid pid ptitle check_access check_lic urlCheck licCheck p).accessibility = 100 ∧
      (score_property cid pid ptitle check_access check_lic urlCheck licCheck p).accessibility_reason =
        "Inapplicable (not URL)") ∧
    (p.property_type ≠ "resource" →
      (score_property cid pid ptitle check_access check_lic urlCheck licCheck p).linkability = 100) ∧
    (¬ (p.property_type = "url" ∧ p.is_repo_url = true) →
      (score_property cid pid ptitle check_access check_lic urlCheck licCheck p).license = 100) := by
  refine ⟨fun h => ?_, fun h => ?_, fun h => ?_⟩
  · have ha : (score_property cid pid ptitle check_access check_lic urlCheck licCheck p).accessibility =
        (access_score check_access urlCheck p.property_type p.value).1 := rfl
    have hr : (score_property cid pid ptitle check_access check_lic urlCheck licCheck p).accessibility_reason =
        (access_score check_access urlCheck p.property_type p.value).2 := rfl
    rw [ha, hr]
    unfold access_score
    rw [if_neg h]
    exact ⟨rfl, rfl⟩
  · have hl : (score_property cid pid ptitle check_access check_lic urlCheck licCheck p).linkability =
        (link_score p).1 := rfl
    rw [hl]
    unfold link_score
    rw [if_neg h]
  · have hl : (score_property cid pid ptitle check_access check_lic urlCheck licCheck p).license =
        (lic_score check_lic licCheck p).1 := rfl
    rw [hl]
    unfold lic_score
    rw [if_neg h]

/-- C4 witness: a literal property passes all three inapplicable pillars. -/
theorem inapplicable_passes_witness :
    (score_property "C1" "P1" "T" true true (fun _ => (false, "Error: x"))
      (fun _ _ _ => (false, "", "API failed")) propNA).accessibility = 100 ∧
    (score_property "C1" "P1" "T" true true (fun _ => (false, "Error: x"))
      (fun _ _ _ => (false, "", "API failed")) propNA).linkability = 100 ∧
    (score_property "C1" "P1" "T" true true (fun _ => (false, "Error: x"))
      (fun _ _ _ => (false, "", "API failed")) propNA).license = 100 := by
  have h := inapplicable_passes "C1" "P1" "T" true true (fun _ => (false, "Error: x"))
    (fun _ _ _ => (false, "", "API failed")) propNA
  exact ⟨(h.1 (by decide)).1, h.2.1 (by decide), h.2.2 (by decide)⟩

/-- C5: process_property assigns exactly one of url, resource, literal, in
that priority order: url exactly when the value starts with a scheme,
resource exactly when it does not and the object kind is resource, literal
otherwise; in particular a resource-kind object with a scheme-prefixed
value is classified url. -/
theorem classification_total (stmt : RawStatement) :
    ((process_property stmt).property_type = "url" ∨
      (process_property stmt).property_type = "resource" ∨
      (process_property stmt).property_type = "literal") ∧
    ((process_property stmt).property_type = "url" ↔
      (pyStartsWith stmt.object.label "http://"
        || pyStartsWith stmt.object.label "https://") = true) ∧
    ((process_property stmt).property_type = "resource" ↔
      ((pyStartsWith stmt.object.label "http://"
        || pyStartsWith stmt.object.label "https://") = false ∧
        stmt.object.objectClass = "resource")) ∧
    ((process_property stmt).property_type = "literal" ↔
      ((pyStartsWith stmt.object.label "http://"
        || pyStartsWith stmt.object.label "https://") = false ∧
        stmt.object.objectClass ≠ "resource")) := by
  have hty : (process_property stmt).property_type =
      (if (pyStartsWith stmt.object.label "http://"
          || pyStartsWith stmt.object.label "https://") = true then "url"
        else if stmt.object.objectClass = "resource" then "resource"
        else "literal") := by
    simp only [process_property]
    split_ifs <;> rfl
  rw [hty]
  cases hc : (pyStartsWith stmt.object.label "http://"
      || pyStartsWith stmt.object.label "https://") with
  | true => simp
  | false =>
    by_cases h2 : stmt.object.objectClass = "resource"
    · simp [h2]
    · simp [h2]

/-- C9: with both live checks disabled, evaluate_contribution never consults
the network oracles — evaluating under any two pairs of oracles yields the
same complete result (all scores, reasons, overall and tier), so the
function is a deterministic, offline function of the contribution. -/
theorem offline_oracle_independent (contrib : Contribution)
    (urlCheck urlCheck' : String → Bool × String)
    (licCheck licCheck' : String → String → String → Bool × String × String) :
    evaluate_contribution contrib false false urlCheck licCheck =
      evaluate_contribution contrib false false urlCheck' licCheck' := by
  have hsp : score_property contrib.contribution_id contrib.paper_id
      contrib.paper_title false false urlCheck licCheck =
      score_property contrib.contribution_id contrib.paper_id
        contrib.paper_title false false urlCheck' licCheck' := by
    funext p
    unfold score_property access_score lic_score
    simp
  simp only [evaluate_contribution, hsp]

/-- C10: every stored property value is the raw value cut to its first 150
code points (hence a prefix of the raw value), while the detailed CSV cell
cuts the stored value once more to the first 80 code points of the raw
value. -/
theorem value_truncation (contrib : Contribution) (check_access check_lic : Bool)
    (urlCheck : String → Bool × String)
    (licCheck : String → String → String → Bool × String × String) :
    List.Forall₂ (fun (p : PropInfo) (e : PropertyEval) =>
        e.value = pyTake 150 p.value ∧
        List.IsPrefix e.value.data p.value.data ∧
        detailed_value_cell e = pyTake 80 p.value)
      contrib.reproducibility_properties
      (evaluate_contribution contrib check_access check_lic urlCheck licCheck).properties := by
  have hprops : (evaluate_contribution contrib check_access check_lic urlCheck licCheck).properties =
      contrib.reproducibility_properties.map (score_property contrib.contribution_id
        contrib.paper_id contrib.paper_title check_access check_lic urlCheck licCheck) := rfl
  rw [hprops, List.forall₂_map_right_iff, List.forall₂_same]
  intro p _
  refine ⟨rfl, ?_, ?_⟩
  · exact List.take_prefix 150 p.value.data
  · show pyTake 80 (pyTake 150 p.value) = pyTake 80 p.value
    unfold pyTake
    have : (p.value.data.take 150).take 80 = p.value.data.take 80 := by
      rw [List.take_take]
      norm_num
    simp [this]

/-! Bounds for the pillar scores and their means. -/

lemma listMean_bounds {l : List ℚ} (hne : l ≠ [])
    (h : ∀ x ∈ l, 0 ≤ x ∧ x ≤ 100) : 0 ≤ listMean l ∧ listMean l ≤ 100 := by
  have hpos : 0 < (l.length : ℚ) := by
    have := List.length_pos.mpr hne
    exact_mod_cast this
  unfold listMean
  constructor
  · exact div_nonneg (List.sum_nonneg fun x hx => (h x hx).1) hpos.le
  · rw [div_le_iff₀ hpos]
    have := List.sum_le_card_nsmul l 100 fun x hx => (h x hx).2
    rwa [nsmul_eq_mul, mul_comm] at this

lemma calc_mean_bounds {l : List ℚ} (h : ∀ x ∈ l, 0 ≤ x ∧ x ≤ 100) :
    0 ≤ calc_mean l ∧ calc_mean l ≤ 100 := by
  by_cases hnil : l = []
  · subst hnil
    rw [calc_mean]
    norm_num
  · by_cases h4 : 4 ≤ l.length
    · rw [calc_mean, if_neg hnil, if_pos h4]
      have hperm := List.perm_insertionSort (· ≤ ·) l
      have hlen : (List.insertionSort (· ≤ ·) l).length = l.length := hperm.length_eq
      have hlen2 : (((List.insertionSort (· ≤ ·) l).drop 1).dropLast).length = l.length - 2 := by
        rw [List.length_dropLast, List.length_drop]
        omega
      have hne : ((List.insertionSort (· ≤ ·) l).drop 1).dropLast ≠ [] := by
        apply List.ne_nil_of_length_pos
        omega
      apply listMean_bounds hne
      intro x hx
      have hxs : x ∈ List.insertionSort (· ≤ ·) l :=
        (List.drop_sublist 1 _).mem ((List.dropLast_sublist _).mem hx)
      exact h x (hperm.subset hxs)
    · rw [calc_mean, if_neg hnil, if_neg h4]
      exact listMean_bounds hnil h

lemma avail_score_bounds (v : String) :
    0 ≤ (avail_score v).1 ∧ (avail_score v).1 ≤ 100 := by
  unfold avail_score
  split_ifs <;> norm_num

lemma access_score_bounds (check_access : Bool) (urlCheck : String → Bool × String)
    (t v : String) : 0 ≤ (access_score check_access urlCheck t v).1 ∧
      (access_score check_access urlCheck t v).1 ≤ 100 := by
  simp only [access_score]
  split_ifs <;> norm_num

lemma link_score_bounds (p : PropInfo) :
    0 ≤ (link_score p).1 ∧ (link_score p).1 ≤ 100 := by
  simp only [link_score]
  split_ifs <;> norm_num

lemma lic_score_bounds (check_lic : Bool)
    (licCheck : String → String → String → Bool × String × String) (p : PropInfo) :
    0 ≤ (lic_score check_lic licCheck p).1 ∧ (lic_score check_lic licCheck p).1 ≤ 100 := by
  simp only [lic_score]
  split_ifs <;> norm_num

lemma listMean_four (a b c d : ℚ) : listMean [a, b, c, d] = (a + b + c + d) / 4 := by
  unfold listMean
  simp [List.sum_cons, List.sum_nil]
  ring_nf

/-- C8: the overall score of every contribution is the unweighted mean of
the four pillar trimmed means, and it always lies between 0 and 100. -/
theorem overall_score_bounds (contrib : Contribution) (check_access check_lic : Bool)
    (urlCheck : String → Bool × String)
    (licCheck : String → String → String → Bool × String × String) :
    (evaluate_contribution contrib check_access check_lic urlCheck licCheck).overall =
      ((evaluate_contribution contrib check_access check_lic urlCheck licCheck).availability +
        (evaluate_contribution contrib check_access check_lic urlCheck licCheck).accessibility +
        (evaluate_contribution contrib check_access check_lic urlCheck licCheck).linkability +
        (evaluate_contribution contrib check_access check_lic urlCheck licCheck).license) / 4 ∧
    0 ≤ (evaluate_contribution contrib check_access check_lic urlCheck licCheck).overall ∧
    (evaluate_contribution contrib check_access check_lic urlCheck licCheck).overall ≤ 100 := by
  have ho : (evaluate_contribution contrib check_access check_lic urlCheck licCheck).overall =
      listMean [(evaluate_contribution contrib check_access check_lic urlCheck licCheck).availability,
        (evaluate_contribution contrib check_access check_lic urlCheck licCheck).accessibility,
        (evaluate_contribution contrib check_access check_lic urlCheck licCheck).linkability,
        (evaluate_contribution contrib check_access check_lic urlCheck licCheck).license] := rfl
  have hbA : 0 ≤ (evaluate_contribution contrib check_access check_lic urlCheck licCheck).availability ∧
      (evaluate_contribution contrib check_access check_lic urlCheck licCheck).availability ≤ 100 := by
    apply calc_mean_bounds
    intro x hx
    rw [List.mem_map] at hx
    obtain ⟨e, he, rfl⟩ := hx
    rw [List.mem_map] at he
    obtain ⟨p, -, rfl⟩ := he
    exact avail_score_bounds p.value
  have hbB : 0 ≤ (evaluate_contribution contrib check_access check_lic urlCheck licCheck).accessibility ∧
      (evaluate_contribution contrib check_access check_lic urlCheck licCheck).accessibility ≤ 100 := by
    apply calc_mean_bounds
    intro x hx
    rw [List.mem_map] at hx
    obtain ⟨e, he, rfl⟩ := hx
    rw [List.mem_map] at he
    obtain ⟨p, -, rfl⟩ := he
    exact access_score_bounds check_access urlCheck p.property_type p.value
  have hbC : 0 ≤ (evaluate_contribution contrib check_access check_lic urlCheck licCheck).linkability ∧
      (evaluate_contribution contrib check_access check_lic urlCheck licCheck).linkability ≤ 100 := by
    apply calc_mean_bounds
    intro x hx
    rw [List.mem_map] at hx
    obtain ⟨e, he, rfl⟩ := hx
    rw [List.mem_map] at he
    obtain ⟨p, -, rfl⟩ := he
    exact link_score_bounds p
  have hbD : 0 ≤ (evaluate_contribution contrib check_access check_lic urlCheck licCheck).license ∧
      (evaluate_contribution contrib check_access check_lic urlCheck licCheck).license ≤ 100 := by
    apply calc_mean_bounds
    intro x hx
    rw [List.mem_map] at hx
    obtain ⟨e, he, rfl⟩ := hx
    rw [List.mem_map] at he
    obtain ⟨p, -, rfl⟩ := he
    exact lic_score_bounds check_lic licCheck p
  rw [ho, listMean_four]
  refine ⟨rfl, ?_, ?_⟩
  · have := hbA.1
    have := hbB.1
    have := hbC.1
    have := hbD.1
    linarith
  · have := hbA.2
    have := hbB.2
    have := hbC.2
    have := hbD.2
    linarith

/-! Structure of successful repository-pattern matches. -/

lemma matchOwnerRepoAt_groups {host s : List Char} {g1 g2 : List Char}
    (h : matchOwnerRepoAt host s = some (g1, g2)) : g1 ≠ [] ∧ g2 ≠ [] := by
  simp only [matchOwnerRepoAt] at h
  split at h
  · split at h
    · cases h
    · split at h
      · split at h
        · cases h
        · injection h with h'
          injection h' with ha hb
          subst ha
          subst hb
          constructor <;> simp_all [List.isEmpty_iff]
      · cases h
  · cases h

lemma matchDigitsAt_groups {lit s : List Char} {g : List Char}
    (h : matchDigitsAt lit s = some g) : g ≠ [] ∧ ∀ c ∈ g, Char.isDigit c := by
  simp only [matchDigitsAt] at h
  split at h
  · split at h
    · cases h
    · injection h with h'
      subst h'
      constructor
      · simp_all [List.isEmpty_iff]
      · intro c hc
        exact List.mem_takeWhile_imp hc
  · cases h

lemma reSearch_some {α : Type} (tryAt : List Char → Option α) :
    ∀ (s : List Char) (r : α), reSearch tryAt s = some r → ∃ s', tryAt s' = some r := by
  intro s
  induction s with
  | nil =>
    intro r h
    exact ⟨[], by simpa [reSearch] using h⟩
  | cons c t ih =>
    intro r h
    rw [reSearch] at h
    cases htry : tryAt (c :: t) with
    | some r' =>
      rw [htry] at h
      simp only [] at h
      exact ⟨c :: t, htry.trans h⟩
    | none =>
      rw [htry] at h
      simp only [] at h
      exact ih r h

lemma mk_ne_empty {l : List Char} (h : l ≠ []) : (⟨l⟩ : String) ≠ "" :=
  fun he => h (congrArg String.data he)

lemma stripDotGit_of_not_suffix {g : List Char}
    (h : ¬ [ '.', 'g', 'i', 't' ].isSuffixOf g) : stripDotGit ⟨g⟩ = ⟨g⟩ := by
  unfold stripDotGit
  exact if_neg h

lemma stripDotGit_empty_iff {g : List Char} (hg : g ≠ []) :
    stripDotGit ⟨g⟩ = "" ↔ g = [ '.', 'g', 'i', 't' ] := by
  rw [stripDotGit]
  by_cases hs : [ '.', 'g', 'i', 't' ].isSuffixOf g
  · rw [if_pos hs]
    have hsuf : List.IsSuffix [ '.', 'g', 'i', 't' ] g :=
      (List.isSuffixOf_iff_suffix).mp hs
    have hlen4 : 4 ≤ g.length := by simpa using hsuf.length_le
    constructor
    · intro h
      have hdata : g.take (g.length - 4) = [] := congrArg String.data h
      have hlen : g.length = 4 := by
        have := congrArg List.length hdata
        rw [List.length_take] at this
        simp at this
        omega
      exact (hsuf.sublist.eq_of_length (by simp [hlen])).symm
    · intro h
      subst h
      decide
  · rw [if_neg hs]
    constructor
    · intro h
      exact absurd (congrArg String.data h) hg
    · intro h
      subst h
      exact absurd (by decide) hs

/-- The list g is the name group that a repository pattern actually
extracted from the url: for an owner/name pattern of REPO_PATTERNS it is
the second group found by scanning the url (the first group supplying the
owner), for a record-id pattern it is the digit group (with the fixed
zenodo owner and the raw record id as name). Statements about repo_name
are anchored through this predicate to the concrete match the code made. -/
def matched_name_group (url t o n : String) (g : List Char) : Prop :=
  (∃ host tag g1, RepoPattern.ownerRepo host tag ∈ REPO_PATTERNS ∧
      reSearch (matchOwnerRepoAt host.data) url.data = some (g1, g) ∧
      t = tag ∧ o = ⟨g1⟩) ∨
  (∃ lit tag, RepoPattern.recordId lit tag ∈ REPO_PATTERNS ∧
      reSearch (matchDigitsAt lit.data) url.data = some g ∧
      t = tag ∧ o = "zenodo" ∧ n = ⟨g⟩)

lemma runRepoPattern_shape {p : RepoPattern} {url t o n : String}
    (h : runRepoPattern p url = some (t, o, n)) :
    o ≠ "" ∧ ∃ g : List Char,
      ((∃ host tag g1, p = RepoPattern.ownerRepo host tag ∧
          reSearch (matchOwnerRepoAt host.data) url.data = some (g1, g) ∧
          t = tag ∧ o = ⟨g1⟩) ∨
        (∃ lit tag, p = RepoPattern.recordId lit tag ∧
          reSearch (matchDigitsAt lit.data) url.data = some g ∧
          t = tag ∧ o = "zenodo" ∧ n = ⟨g⟩)) ∧
      g ≠ [] ∧ n = stripDotGit ⟨g⟩ ∧ (n = "" ↔ g = [ '.', 'g', 'i', 't' ]) := by
  cases p with
  | ownerRepo host tag =>
    simp only [runRepoPattern] at h
    cases hsr : reSearch (matchOwnerRepoAt host.data) url.data with
    | none => rw [hsr] at h; cases h
    | some gg =>
      obtain ⟨g1, g2⟩ := gg
      rw [hsr] at h
      simp only [Option.some.injEq, Prod.mk.injEq] at h
      obtain ⟨h1, h2, h3⟩ := h
      subst h1
      subst h2
      subst h3
      obtain ⟨s', hm⟩ := reSearch_some _ _ _ hsr
      obtain ⟨hg1, hg2⟩ := matchOwnerRepoAt_groups hm
      exact ⟨mk_ne_empty hg1, g2, Or.inl ⟨host, tag, g1, rfl, hsr, rfl, rfl⟩,
        hg2, rfl, stripDotGit_empty_iff hg2⟩
  | recordId lit tag =>
    simp only [runRepoPattern] at h
    cases hsr : reSearch (matchDigitsAt lit.data) url.data with
    | none => rw [hsr] at h; cases h
    | some g =>
      rw [hsr] at h
      simp only [Option.some.injEq, Prod.mk.injEq] at h
      obtain ⟨h1, h2, h3⟩ := h
      subst h1
      subst h2
      subst h3
      obtain ⟨s', hm⟩ := reSearch_some _ _ _ hsr
      obtain ⟨hg, hdig⟩ := matchDigitsAt_groups hm
      have hnsuf : ¬ [ '.', 'g', 'i', 't' ].isSuffixOf g := by
        intro hs
        have ht : 't' ∈ g :=
          ((List.isSuffixOf_iff_suffix).mp hs).sublist.subset (by simp)
        have := hdig 't' ht
        simp [Char.isDigit] at this
      have hne : g ≠ [ '.', 'g', 'i', 't' ] := by
        intro hgg
        have := hdig '.' (by rw [hgg]; simp)
        simp [Char.isDigit] at this
      refine ⟨by decide, g, Or.inr ⟨lit, tag, rfl, hsr, rfl, rfl, rfl⟩,
        hg, (stripDotGit_of_not_suffix hnsuf).symm, ?_⟩
      constructor
      · intro hh
        exact absurd (congrArg String.data hh) hg
      · intro hh
        exact absurd hh hne

lemma extract_repo_info_shape {url t o n : String}
    (h : extract_repo_info url = some (t, o, n)) :
    o ≠ "" ∧ ∃ g : List Char, matched_name_group url t o n g ∧
      g ≠ [] ∧ n = stripDotGit ⟨g⟩ ∧ (n = "" ↔ g = [ '.', 'g', 'i', 't' ]) := by
  unfold extract_repo_info at h
  split at h
  · cases h
  · obtain ⟨p, hmem, hp⟩ := List.exists_of_findSome?_eq_some h
    obtain ⟨ho, g, hanchor, hg, hn, hiff⟩ := runRepoPattern_shape hp
    refine ⟨ho, g, ?_, hg, hn, hiff⟩
    rcases hanchor with ⟨host, tag, g1, hpe, hsr, ht, hoe⟩ |
      ⟨lit, tag, hpe, hsr, ht, hoe, hne⟩
    · exact Or.inl ⟨host, tag, g1, hpe ▸ hmem, hsr, ht, hoe⟩
    · exact Or.inr ⟨lit, tag, hpe ▸ hmem, hsr, ht, hoe, hne⟩

/-- C6 (amended): for a url-classified property whose value matches a
repository pattern, is_repo_url is true and the repo fields carry the
match; repo_owner is always a non-empty string, while repo_name is the name
group the winning pattern actually extracted from the value (witnessed by
the matched_name_group anchor) with one trailing .git removed — so
repo_name is non-empty except in the degenerate case where that matched
name group is exactly .git, in which case repo_name is the empty string. -/
theorem repo_extraction (stmt : RawStatement) (t o n : String)
    (hurl : (process_property stmt).property_type = "url")
    (hx : extract_repo_info (process_property stmt).value = some (t, o, n)) :
    (process_property stmt).is_repo_url = true ∧
    (process_property stmt).repo_type = some t ∧
    (process_property stmt).repo_owner = some o ∧
    (process_property stmt).repo_name = some n ∧
    o ≠ "" ∧
    ∃ g : List Char, matched_name_group (process_property stmt).value t o n g ∧
      g ≠ [] ∧ n = stripDotGit ⟨g⟩ ∧
      (n = "" ↔ g = [ '.', 'g', 'i', 't' ]) := by
  have hc : (pyStartsWith stmt.object.label "http://"
      || pyStartsWith stmt.object.label "https://") = true :=
    (classification_total stmt).2.1.mp hurl
  have hval : (process_property stmt).value = stmt.object.label := rfl
  rw [hval] at hx
  rw [hval]
  have hfields : (process_property stmt).is_repo_url =
        (extract_repo_info stmt.object.label).isSome ∧
      (process_property stmt).repo_type =
        (extract_repo_info stmt.object.label).map (fun r => r.1) ∧
      (process_property stmt).repo_owner =
        (extract_repo_info stmt.object.label).map (fun r => r.2.1) ∧
      (process_property stmt).repo_name =
        (extract_repo_info stmt.object.label).map (fun r => r.2.2) := by
    simp [process_property, hc]
  obtain ⟨hf1, hf2, hf3, hf4⟩ := hfields
  obtain ⟨ho, hg⟩ := extract_repo_info_shape hx
  refine ⟨?_, ?_, ?_, ?_, ho, hg⟩
  · rw [hf1, hx]
    rfl
  · rw [hf2, hx]
    rfl
  · rw [hf3, hx]
    rfl
  · rw [hf4, hx]
    rfl

/-- A statement whose url value matches the github pattern with the name
component .git itself. -/
def stmtDotGit : RawStatement :=
  ⟨⟨"P1", "code"⟩, ⟨"L9", "https://github.com/foo/.git", "literal"⟩⟩

/-- C6 counterexample: the github pattern matches this url, is_repo_url is
set, repo_owner is non-empty, yet repo_name is the empty string after the
trailing .git is stripped — refuting the claimed non-emptiness of
repo_name. -/
theorem repo_extraction_counterexample :
    (process_property stmtDotGit).property_type = "url" ∧
    (process_property stmtDotGit).is_repo_url = true ∧
    (process_property stmtDotGit).repo_owner = some "foo" ∧
    (process_property stmtDotGit).repo_name = some "" := by decide

/-- A statement whose url value matches the github pattern normally. -/
def stmtBarGit : RawStatement :=
  ⟨⟨"P1", "code"⟩, ⟨"L8", "https://github.com/foo/bar.git", "literal"⟩⟩

/-- C6 witness: the amended extraction property evaluated on a concrete
matching url. -/
theorem repo_extraction_witness :
    (process_property stmtBarGit).is_repo_url = true ∧
    (process_property stmtBarGit).repo_type = some "github" ∧
    (process_property stmtBarGit).repo_owner = some "foo" ∧
    (process_property stmtBarGit).repo_name = some "bar" ∧
    ("foo" : String) ≠ "" ∧
    ∃ g : List Char,
      matched_name_group (process_property stmtBarGit).value "github" "foo" "bar" g ∧
      g ≠ [] ∧ ("bar" : String) = stripDotGit ⟨g⟩ ∧
      (("bar" : String) = "" ↔ g = [ '.', 'g', 'i', 't' ]) :=
  repo_extraction stmtBarGit "github" "foo" "bar" (by decide) (by decide)

/-- C3 (amended): a transport failure on the statement-bundle fetch of one
contribution degrades to skipping exactly that contribution — the
contribution loop proceeds over the remaining items from an unchanged
state, as if the failed item were absent. A page-fetch failure, by
contrast, ends the page loop (see the counterexample). -/
theorem bundle_failure_skips (min_per_type max_contributions : Nat)
    (bundles : String → Option (List RawStatement)) (paper : Paper)
    (c : RawContrib) (rest : List RawContrib) (st : CollectState)
    (h : bundles c.id = none) :
    processContribs min_per_type max_contributions bundles paper (c :: rest) st =
      processContribs min_per_type max_contributions bundles paper rest st := by
  have hone : processOneContrib min_per_type bundles paper c st = st := by
    unfold processOneContrib
    rw [h]
    rfl
  rw [processContribs, hone]
  split_ifs with hg
  · cases rest with
    | nil => rfl
    | cons d ds => rw [processContribs, if_pos hg]
  · rfl

/-- A bundle oracle in which every statement-bundle fetch fails. -/
def bundlesFailAll : String → Option (List RawStatement) := fun _ => none

/-- A one-contribution paper used in collector scenarios. -/
def paperWitness : Paper := ⟨"PA", "A", none, [⟨"CX", "c"⟩]⟩

/-- C3 witness: the skip equation applied to a concrete failing bundle. -/
theorem bundle_failure_skips_witness :
    processContribs 5 10 bundlesFailAll paperWitness [⟨"CX", "c"⟩]
        ⟨[], ⟨0, 0, 0, 0, 0⟩⟩ =
      processContribs 5 10 bundlesFailAll paperWitness [] ⟨[], ⟨0, 0, 0, 0, 0⟩⟩ :=
  bundle_failure_skips 5 10 bundlesFailAll paperWitness ⟨"CX", "c"⟩ []
    ⟨[], ⟨0, 0, 0, 0, 0⟩⟩ rfl

/-- A reproducibility-relevant literal statement. -/
def stmtCode : RawStatement := ⟨⟨"P1", "code"⟩, ⟨"L1", "x", "literal"⟩⟩

/-- Page oracle: page 0 holds paper PA, the fetch of page 1 fails, page 2
holds paper PB. -/
def pagesFailAt1 : Nat → Option (List Paper) := fun k =>
  if k = 0 then some [⟨"PA", "A", none, [⟨"CA", "c"⟩]⟩]
  else if k = 2 then some [⟨"PB", "B", none, [⟨"CB", "c"⟩]⟩]
  else none

/-- Bundle oracle: every contribution resolves to one relevant statement. -/
def bundlesOneStmt : String → Option (List RawStatement) := fun _ => some [stmtCode]

/-- C3 counterexample: with the page-1 fetch failing, collection stops
after accepting only CA — although the balance target is not reached, the
cap is not reached, and the contribution CB waiting on page 2 would have
been accepted (processing page 2 from the final state accepts it). The
page-fetch transport failure therefore terminates the collection loop over
other items, refuting the claim for page fetches. -/
theorem page_failure_aborts_counterexample :
    ((collect_contributions 5 10 pagesFailAt1 bundlesOneStmt).contributions.map
      (fun c => c.contribution_id)) = ["CA"] ∧
    is_balanced (collect_contributions 5 10 pagesFailAt1 bundlesOneStmt).type_counts 5 = false ∧
    (collect_contributions 5 10 pagesFailAt1 bundlesOneStmt).contributions.length < 10 ∧
    ((processPapers 5 10 bundlesOneStmt [⟨"PB", "B", none, [⟨"CB", "c"⟩]⟩]
        (collect_contributions 5 10 pagesFailAt1 bundlesOneStmt)).contributions.map
      (fun c => c.contribution_id)) = ["CA", "CB"] := by decide

/-! Cap preservation and page-budget termination of the collector. -/

lemma processOneContrib_length (min_per_type : Nat)
    (bundles : String → Option (List RawStatement)) (paper : Paper)
    (c : RawContrib) (st : CollectState) :
    (processOneContrib min_per_type bundles paper c st).contributions.length ≤
      st.contributions.length + 1 := by
  simp only [processOneContrib]
  split_ifs <;> simp

lemma processContribs_cap (min_per_type max_contributions : Nat)
    (bundles : String → Option (List RawStatement)) (paper : Paper) :
    ∀ (cs : List RawContrib) (st : CollectState),
      st.contributions.length ≤ max_contributions →
      (processContribs min_per_type max_contributions bundles paper cs st).contributions.length ≤
        max_contributions := by
  intro cs
  induction cs with
  | nil => intro st h; exact h
  | cons c rest ih =>
    intro st h
    rw [processContribs]
    split_ifs with hg
    · exact h
    · apply ih
      have hlt : st.contributions.length < max_contributions := by
        by_contra hge
        exact hg (Or.inr (by omega))
      have := processOneContrib_length min_per_type bundles paper c st
      omega

lemma processPapers_cap (min_per_type max_contributions : Nat)
    (bundles : String → Option (List RawStatement)) :
    ∀ (ps : List Paper) (st : CollectState),
      st.contributions.length ≤ max_contributions →
      (processPapers min_per_type max_contributions bundles ps st).contributions.length ≤
        max_contributions := by
  intro ps
  induction ps with
  | nil => intro st h; exact h
  | cons paper rest ih =>
    intro st h
    rw [processPapers]
    split_ifs with hg
    · exact h
    · exact ih _ (processContribs_cap _ _ _ _ _ _ h)

lemma collectAux_cap (min_per_type max_contributions : Nat)
    (pages : Nat → Option (List Paper)) (bundles : String → Option (List RawStatement)) :
    ∀ (fuel page : Nat) (st : CollectState),
      st.contributions.length ≤ max_contributions →
      (collectAux min_per_type max_contributions pages bundles fuel page st).contributions.length ≤
        max_contributions := by
  intro fuel
  induction fuel with
  | zero => intro page st h; exact h
  | succ n ih =>
    intro page st h
    rw [collectAux]
    split_ifs with hg
    · cases hp : pages page with
      | none => simp only [hp]; exact h
      | some papers =>
        simp only [hp]
        split_ifs with he
        · exact h
        · exact ih _ _ (processPapers_cap _ _ _ _ _ h)
    · exact h

lemma collectAux_stop (min_per_type max_contributions : Nat)
    (pages : Nat → Option (List Paper)) (bundles : String → Option (List RawStatement))
    (fuel page : Nat) (st : CollectState) (h : 1000 ≤ page) :
    collectAux min_per_type max_contributions pages bundles fuel page st = st := by
  cases fuel with
  | zero => rfl
  | succ n =>
    rw [collectAux, if_neg]
    rintro ⟨-, h2, -⟩
    omega

lemma collectAux_fuel_irrelevant (min_per_type max_contributions : Nat)
    (pages : Nat → Option (List Paper)) (bundles : String → Option (List RawStatement)) :
    ∀ (f₁ f₂ page : Nat) (st : CollectState), 1000 - page ≤ f₁ → 1000 - page ≤ f₂ →
      collectAux min_per_type max_contributions pages bundles f₁ page st =
        collectAux min_per_type max_contributions pages bundles f₂ page st := by
  intro f₁
  induction f₁ with
  | zero =>
    intro f₂ page st h1 h2
    have hp : 1000 ≤ page := by omega
    rw [collectAux_stop _ _ _ _ _ _ _ hp, collectAux_stop _ _ _ _ _ _ _ hp]
  | succ n ih =>
    intro f₂ page st h1 h2
    cases f₂ with
    | zero =>
      have hp : 1000 ≤ page := by omega
      rw [collectAux_stop _ _ _ _ _ _ _ hp, collectAux_stop _ _ _ _ _ _ _ hp]
    | succ m =>
      rw [collectAux, collectAux]
      split_ifs with hg
      · obtain ⟨-, hlt, -⟩ := hg
        cases hp : pages page with
        | none => simp only [hp]
        | some papers =>
          simp only [hp]
          split_ifs with he
          · rfl
          · exact ih m (page + 1) _ (by omega) (by omega)
      · rfl

/-- C7: for every page and bundle oracle and every configuration, the
collector never accepts more than max_contributions contributions, and its
page loop is insensitive to any fuel beyond the max_pages budget of 1000 —
the loop always terminates within 1000 page iterations, even when the
balance target can never be reached. -/
theorem collector_cap_and_termination (min_per_type max_contributions : Nat)
    (pages : Nat → Option (List Paper)) (bundles : String → Option (List RawStatement)) :
    (collect_contributions min_per_type max_contributions pages bundles).contributions.length ≤
      max_contributions ∧
    ∀ fuel : Nat, 1000 ≤ fuel →
      collectAux min_per_type max_contributions pages bundles fuel 0 ⟨[], ⟨0, 0, 0, 0, 0⟩⟩ =
        collect_contributions min_per_type max_contributions pages bundles := by
  constructor
  · exact collectAux_cap _ _ _ _ 1000 0 _ (by simp)
  · intro fuel hf
    unfold collect_contributions
    exact collectAux_fuel_irrelevant _ _ _ _ fuel 1000 0 _ (by omega) (by omega)

/-- C7 witness: the cap bound and the fuel-insensitivity applied to a
concrete configuration in which the target is unreachable because every
page fetch fails. -/
theorem collector_cap_and_termination_witness :
    (collect_contributions 1 2 (fun _ => none) bundlesFailAll).contributions.length ≤ 2 ∧
    collectAux 1 2 (fun _ => none) bundlesFailAll 1005 0 ⟨[], ⟨0, 0, 0, 0, 0⟩⟩ =
      collect_contributions 1 2 (fun _ => none) bundlesFailAll :=
  ⟨(collector_cap_and_termination 1 2 (fun _ => none) bundlesFailAll).1,
    (collector_cap_and_termination 1 2 (fun _ => none) bundlesFailAll).2 1005 (by norm_num)⟩
